import Mathlib

/-!
Verification development for the larsajps GPS track viewer.

The JavaScript sources under src/js are shallowly embedded here:

* numbers are modelled by `ℚ` (idealised IEEE doubles: the claims under
  study never depend on binary rounding), with `JsNum` adding the special
  values NaN and ±Infinity where the code can actually produce them
  (the colour pipeline in utils.js);
* JS `null` for an optional numeric field is `Option.none`;
* strings are Lean `String` / `List Char`; `parseFloat` / `parseInt`
  are modelled by functions below that follow the ECMAScript
  longest-valid-prefix rules, returning `none` for NaN;
* `Date` values are modelled by their millisecond value (`ℤ`), with the
  constant "current date" base of jpsParser.js dropped: an affine shift
  that preserves ordering and equality of the keys, which is all the
  code observes.

Each definition carries a reference to the source function it embeds.
-/

/-! ## ECMAScript primitives (string scanning, parseFloat, parseInt) -/

/-- Whitespace accepted by the JS trimming / numeric prefix scanners. -/
def jsWhite (c : Char) : Bool :=
  c == ' ' || c == '\t' || c == '\n' || c == '\r'

/-- JS `String.prototype.trim` on a character list. -/
def jsTrim (l : List Char) : List Char :=
  ((l.dropWhile jsWhite).reverse.dropWhile jsWhite).reverse

/-- JS `String.prototype.split` with a single-character separator. -/
def splitChar (sep : Char) : List Char → List (List Char)
  | [] => [[]]
  | c :: r =>
    if c = sep then [] :: splitChar sep r
    else
      match splitChar sep r with
      | [] => [[c]]
      | h :: t => (c :: h) :: t

/-- Numeric value of a list of decimal digit characters. -/
def digitsVal (l : List Char) : ℕ :=
  l.foldl (fun a c => 10 * a + (c.toNat - 48)) 0

/-- Optional leading sign, value in `ℚ`. -/
def readSign : List Char → ℚ × List Char
  | '+' :: r => (1, r)
  | '-' :: r => (-1, r)
  | l => (1, l)

/-- Optional leading sign, value in `ℤ`. -/
def readSignZ : List Char → ℤ × List Char
  | '+' :: r => (1, r)
  | '-' :: r => (-1, r)
  | l => (1, l)

/-- Exponent part of a JS float literal; `0` when absent or malformed
(ECMAScript keeps the longest valid prefix, so `"1e+"` parses as `1`). -/
def readExpo (l : List Char) : ℤ :=
  match l with
  | c :: r =>
    if c = 'e' ∨ c = 'E' then
      let sr := readSignZ r
      let ds := sr.2.takeWhile Char.isDigit
      if ds = [] then 0 else sr.1 * (digitsVal ds : ℤ)
    else 0
  | [] => 0

/-- JS global `parseFloat`: skip whitespace, optional sign, decimal
significand, optional exponent; `none` models NaN (no valid prefix).
The `Infinity` literal is not modelled (the numeric domain here is `ℚ`;
no claim feeds that literal to the code). -/
def parseFloat (s : List Char) : Option ℚ :=
  let t := s.dropWhile jsWhite
  let st := readSign t
  let ip := st.2.takeWhile Char.isDigit
  let t2 := st.2.dropWhile Char.isDigit
  match t2 with
  | '.' :: r =>
    let fp := r.takeWhile Char.isDigit
    let t3 := r.dropWhile Char.isDigit
    if ip = [] ∧ fp = [] then none
    else some (st.1 * ((digitsVal ip : ℚ) + (digitsVal fp : ℚ) / 10 ^ fp.length)
      * (10 : ℚ) ^ readExpo t3)
  | _ =>
    if ip = [] then none
    else some (st.1 * (digitsVal ip : ℚ) * (10 : ℚ) ^ readExpo t2)

/-- Value of a hex digit character, `none` otherwise. -/
def hexDigitVal (c : Char) : Option ℕ :=
  if '0' ≤ c ∧ c ≤ '9' then some (c.toNat - 48)
  else if 'a' ≤ c ∧ c ≤ 'f' then some (c.toNat - 87)
  else if 'A' ≤ c ∧ c ≤ 'F' then some (c.toNat - 55)
  else none

/-- Numeric value of a list of hex digit characters. -/
def hexVal (l : List Char) : ℕ :=
  l.foldl (fun a c => 16 * a + ((hexDigitVal c).getD 0)) 0

/-- JS global `parseInt` with no radix argument: skip whitespace, optional
sign, then either a `0x`-prefixed hex literal or decimal digits;
`none` models NaN. -/
def parseInt (s : List Char) : Option ℤ :=
  let t := s.dropWhile jsWhite
  let st := readSignZ t
  match st.2 with
  | '0' :: x :: r =>
    if x = 'x' ∨ x = 'X' then
      let ds := r.takeWhile (fun c => (hexDigitVal c).isSome)
      if ds = [] then none else some (st.1 * (hexVal ds : ℤ))
    else
      let ds := (('0' : Char) :: x :: r).takeWhile Char.isDigit
      if ds = [] then none else some (st.1 * (digitsVal ds : ℤ))
  | l =>
    let ds := l.takeWhile Char.isDigit
    if ds = [] then none else some (st.1 * (digitsVal ds : ℤ))

/-- ECMAScript ToIntegerOrInfinity on a finite value: truncation toward
zero. -/
def ratTrunc (q : ℚ) : ℤ :=
  if 0 ≤ q then ⌊q⌋ else ⌈q⌉

/-! ## Data model: track points (utils.js consumers)

`TrackPoint` is the common shape consumed by `calculateStatistics`
(src/js/utils.js). Optional numeric fields are `Option ℚ`
(`none` = JS `null`); `time` is the `Date` millisecond value
(`none` = JS `null`). -/

structure TrackPoint where
  lat : ℚ
  lon : ℚ
  elevation : Option ℚ
  time : Option ℚ
  speed : Option ℚ
  course : Option ℚ
  hdop : Option ℚ
  vdop : Option ℚ
  pdop : Option ℚ
  satellites : Option ℤ
deriving DecidableEq, Repr

/-- JS truthiness of a number-or-null value: `null` and `0` are falsy. -/
def truthyQ (o : Option ℚ) : Bool :=
  match o with
  | none => false
  | some q => q != 0

/-- ToNumber coercion used when a possibly-null `Date` enters arithmetic:
`null` coerces to `0`, a `Date` to its millisecond value. -/
def jsDateNum (t : Option ℚ) : ℚ :=
  match t with
  | none => 0
  | some q => q

/-! ## utils.js: protection levels, distance, elevation gain, statistics -/

/-- src/js/utils.js `calculateHPL`: `if (!hdop) return null;
return hdop * 5.33 * 2.0;`. -/
def calculateHPL (hdop : Option ℚ) : Option ℚ :=
  if truthyQ hdop then (jsDateNum hdop * (533 / 100) * 2 : ℚ) else none

/-- src/js/utils.js `calculateVPL`: same body as `calculateHPL`. -/
def calculateVPL (vdop : Option ℚ) : Option ℚ :=
  if truthyQ vdop then (jsDateNum vdop * (533 / 100) * 2 : ℚ) else none

/-- JS `Math.atan2` (sign-of-zero nuances ignored). -/
noncomputable def atan2 (y x : ℝ) : ℝ :=
  if 0 < x then Real.arctan (y / x)
  else if x < 0 then
    (if 0 ≤ y then Real.arctan (y / x) + Real.pi else Real.arctan (y / x) - Real.pi)
  else
    (if 0 < y then Real.pi / 2 else if y < 0 then -(Real.pi / 2) else 0)

/-- src/js/utils.js `calculateDistance`: haversine great-circle distance,
Earth radius 6371000 m. -/
noncomputable def calculateDistance (lat1 lon1 lat2 lon2 : ℚ) : ℝ :=
  let R : ℝ := 6371000
  let f1 : ℝ := (lat1 : ℝ) * Real.pi / 180
  let f2 : ℝ := (lat2 : ℝ) * Real.pi / 180
  let df : ℝ := ((lat2 : ℝ) - (lat1 : ℝ)) * Real.pi / 180
  let dl : ℝ := ((lon2 : ℝ) - (lon1 : ℝ)) * Real.pi / 180
  let a : ℝ := Real.sin (df / 2) * Real.sin (df / 2) +
    Real.cos f1 * Real.cos f2 * Real.sin (dl / 2) * Real.sin (dl / 2)
  let c : ℝ := 2 * atan2 (Real.sqrt a) (Real.sqrt (1 - a))
  R * c

/-- src/js/utils.js `calculateTotalDistance`: haversine sum over
consecutive pairs. -/
noncomputable def calculateTotalDistance : List TrackPoint → ℝ
  | [] => 0
  | [_] => 0
  | p :: q :: rest =>
    calculateDistance p.lat p.lon q.lat q.lon + calculateTotalDistance (q :: rest)

/-- src/js/utils.js `calculateElevationGain`: the delta
`points[i].elevation - points[i-1].elevation` coerces a JS `null`
elevation to `0` (ToNumber), and only positive deltas are summed. -/
def calculateElevationGain : List TrackPoint → ℚ
  | [] => 0
  | [_] => 0
  | p :: q :: rest =>
    (let d := jsDateNum q.elevation - jsDateNum p.elevation
     if 0 < d then d else 0) + calculateElevationGain (q :: rest)

/-- The `.filter(x => x !== null && x !== undefined)` projection used by
`calculateStatistics` for the present values of an optional field. -/
def presentQ (l : List (Option ℚ)) : List ℚ :=
  l.filterMap id

/-- Same projection for integer fields (satellite counts). -/
def presentZ (l : List (Option ℤ)) : List ℤ :=
  l.filterMap id

/-- The `.filter(s => s !== null && s !== undefined && s > 0)` projection
used by `calculateStatistics` for recorded speeds. -/
def presentPosQ (l : List (Option ℚ)) : List ℚ :=
  l.filterMap (fun o => o.bind (fun q => if 0 < q then some q else none))

/-- JS `xs.length > 0 ? Math.min(...xs) : null`. -/
def jsMin {α : Type} [LinearOrder α] : List α → Option α
  | [] => none
  | h :: t => some (t.foldl min h)

/-- JS `xs.length > 0 ? Math.max(...xs) : null`. -/
def jsMax {α : Type} [LinearOrder α] : List α → Option α
  | [] => none
  | h :: t => some (t.foldl max h)

/-- JS `xs.length > 0 ? xs.reduce((a,b) => a+b, 0) / xs.length : null`. -/
def jsAvg (l : List ℚ) : Option ℚ :=
  if l = [] then none else some (l.sum / (l.length : ℚ))

/-- Arithmetic mean of an integer list, as `ℚ` (satellite average). -/
def jsAvgZ (l : List ℤ) : Option ℚ :=
  if l = [] then none else some ((l.sum : ℚ) / (l.length : ℚ))

/-- The statistics record returned by src/js/utils.js
`calculateStatistics`. -/
structure Stats where
  distance : ℝ
  duration : ℚ
  avgSpeed : ℝ
  maxSpeed : ℚ
  maxElevation : ℚ
  minElevation : ℚ
  elevationGain : ℚ
  pointCount : ℕ
  minSatellites : Option ℤ
  maxSatellites : Option ℤ
  avgSatellites : Option ℚ
  minHDOP : Option ℚ
  maxHDOP : Option ℚ
  avgHDOP : Option ℚ
  minVDOP : Option ℚ
  maxVDOP : Option ℚ
  avgVDOP : Option ℚ
  minPDOP : Option ℚ
  maxPDOP : Option ℚ
  avgPDOP : Option ℚ
  minHPL : Option ℚ
  maxHPL : Option ℚ
  avgHPL : Option ℚ
  minVPL : Option ℚ
  maxVPL : Option ℚ
  avgVPL : Option ℚ

/-- src/js/utils.js `calculateStatistics` (lines 140-230). Returns
`none` for an empty point list. `duration` divides the difference of the
ToNumber-coerced first/last `time` values by 1000; `avgSpeed` is the
mean of present positive speeds when any exist, else
`distance / duration`; each HPL/VPL entry re-checks truthiness of the
corresponding DOP aggregate before calling the protection-level
function, exactly as the source does. -/
noncomputable def calculateStatistics (points : List TrackPoint) : Option Stats :=
  match points with
  | [] => none
  | p0 :: rest =>
    let pts := p0 :: rest
    let elevations := presentQ (pts.map TrackPoint.elevation)
    let speeds := presentPosQ (pts.map TrackPoint.speed)
    let satellites := presentZ (pts.map TrackPoint.satellites)
    let hdops := presentQ (pts.map TrackPoint.hdop)
    let vdops := presentQ (pts.map TrackPoint.vdop)
    let pdops := presentQ (pts.map TrackPoint.pdop)
    let distance := calculateTotalDistance pts
    let elevationGain := calculateElevationGain pts
    let startTime := jsDateNum p0.time
    let endTime := jsDateNum (TrackPoint.time (pts.getLast (List.cons_ne_nil p0 rest)))
    let duration := (endTime - startTime) / 1000
    let avgSpeed : ℝ :=
      if speeds = [] then distance / (duration : ℝ)
      else ((speeds.sum / (speeds.length : ℚ) : ℚ) : ℝ)
    let minHDOP := jsMin hdops
    let maxHDOP := jsMax hdops
    let avgHDOP := jsAvg hdops
    let minVDOP := jsMin vdops
    let maxVDOP := jsMax vdops
    let avgVDOP := jsAvg vdops
    some {
      distance := distance
      duration := duration
      avgSpeed := avgSpeed
      maxSpeed := (jsMax speeds).getD 0
      maxElevation := (jsMax elevations).getD 0
      minElevation := (jsMin elevations).getD 0
      elevationGain := elevationGain
      pointCount := pts.length
      minSatellites := jsMin satellites
      maxSatellites := jsMax satellites
      avgSatellites := jsAvgZ satellites
      minHDOP := minHDOP
      maxHDOP := maxHDOP
      avgHDOP := avgHDOP
      minVDOP := minVDOP
      maxVDOP := maxVDOP
      avgVDOP := avgVDOP
      minPDOP := jsMin pdops
      maxPDOP := jsMax pdops
      avgPDOP := jsAvg pdops
      minHPL := if truthyQ minHDOP then calculateHPL minHDOP else none
      maxHPL := if truthyQ maxHDOP then calculateHPL maxHDOP else none
      avgHPL := if truthyQ avgHDOP then calculateHPL avgHDOP else none
      minVPL := if truthyQ minVDOP then calculateVPL minVDOP else none
      maxVPL := if truthyQ maxVDOP then calculateVPL maxVDOP else none
      avgVPL := if truthyQ avgVDOP then calculateVPL avgVDOP else none }

/-! ## utils.js colour pipeline

`getColorForValue` divides by `max - min` with no guard, so the JS
special values NaN and ±Infinity are reachable.  `JsNum` models an
idealised IEEE double: a finite rational or one of NaN, +Infinity,
-Infinity (negative zero is not distinguished; the code never produces
it on the divisor path, since `x - x` is `+0`). -/

inductive JsNum where
  | num (q : ℚ)
  | nan
  | inf
  | ninf
deriving DecidableEq, Repr

namespace JsNum

/-- IEEE addition on `JsNum`. -/
def jadd : JsNum → JsNum → JsNum
  | num a, num b => num (a + b)
  | nan, _ => nan
  | _, nan => nan
  | inf, ninf => nan
  | ninf, inf => nan
  | inf, _ => inf
  | _, inf => inf
  | ninf, _ => ninf
  | _, ninf => ninf

/-- IEEE subtraction on `JsNum`. -/
def jsub : JsNum → JsNum → JsNum
  | num a, num b => num (a - b)
  | nan, _ => nan
  | _, nan => nan
  | inf, inf => nan
  | ninf, ninf => nan
  | inf, _ => inf
  | ninf, _ => ninf
  | num _, inf => ninf
  | num _, ninf => inf

/-- IEEE multiplication on `JsNum`. -/
def jmul : JsNum → JsNum → JsNum
  | num a, num b => num (a * b)
  | nan, _ => nan
  | _, nan => nan
  | inf, num b => if b = 0 then nan else if 0 < b then inf else ninf
  | num a, inf => if a = 0 then nan else if 0 < a then inf else ninf
  | ninf, num b => if b = 0 then nan else if 0 < b then ninf else inf
  | num a, ninf => if a = 0 then nan else if 0 < a then ninf else inf
  | inf, inf => inf
  | ninf, ninf => inf
  | inf, ninf => ninf
  | ninf, inf => ninf

/-- IEEE division on `JsNum`: `0/0` is NaN, `x/0` is ±Infinity. -/
def jdiv : JsNum → JsNum → JsNum
  | num a, num b =>
    if b = 0 then (if a = 0 then nan else if 0 < a then inf else ninf)
    else num (a / b)
  | nan, _ => nan
  | _, nan => nan
  | inf, inf => nan
  | inf, ninf => nan
  | ninf, inf => nan
  | ninf, ninf => nan
  | inf, num b => if 0 ≤ b then inf else ninf
  | ninf, num b => if 0 ≤ b then ninf else inf
  | num _, inf => num 0
  | num _, ninf => num 0

/-- IEEE `<` on `JsNum`: any comparison with NaN is false. -/
def jlt : JsNum → JsNum → Bool
  | nan, _ => false
  | _, nan => false
  | num a, num b => a < b
  | inf, _ => false
  | ninf, ninf => false
  | ninf, _ => true
  | num _, inf => true
  | num _, ninf => false

/-- JS `Math.round`: floor of `x + 1/2`; NaN and infinities pass
through. -/
def jround : JsNum → JsNum
  | num q => num ((⌊q + 1 / 2⌋ : ℤ) : ℚ)
  | nan => nan
  | inf => inf
  | ninf => ninf

/-- ECMAScript ToInt32 on an integer: wrap into `[-2^31, 2^31)`. -/
def toInt32Z (z : ℤ) : ℤ :=
  let r := z % 4294967296
  if r < 2147483648 then r else r - 4294967296

/-- ECMAScript ToInt32: NaN and infinities map to 0, finite values are
truncated toward zero and wrapped. -/
def toInt32 : JsNum → ℤ
  | num q => toInt32Z (ratTrunc q)
  | _ => 0

/-- JS `x << k`: ToInt32 the operand, shift, wrap to int32. -/
def shl (v : JsNum) (k : ℕ) : ℤ :=
  toInt32Z (toInt32 v * 2 ^ k)

end JsNum

/-- Lowercase hex digits of a natural, as JS `n.toString(16)`. -/
def natToHex (n : ℕ) : String :=
  String.mk (Nat.toDigits 16 n)

/-- JS `Number.prototype.toString(16)` for the values reachable in
`rgbToHex` (integers and the special values; every finite value reaching
it is an integer because the three channels come from `Math.round` and
the shifts). -/
def jsToStringHex (v : JsNum) : String :=
  match v with
  | JsNum.nan => "NaN"
  | JsNum.inf => "Infinity"
  | JsNum.ninf => "-Infinity"
  | JsNum.num q => if q < 0 then "-" ++ natToHex (ratTrunc q).natAbs else natToHex (ratTrunc q).toNat

/-- JS `String.prototype.slice(1)`. -/
def jsSlice1 (s : String) : String :=
  String.mk (s.data.drop 1)

/-- src/js/utils.js `hexToRgb`: regex `^#?([a-f\d]{2})([a-f\d]{2})([a-f\d]{2})$`
(case-insensitive), returning the three channel values or null. -/
def hexToRgb (hex : String) : Option (ℤ × ℤ × ℤ) :=
  let cs := if hex.data.head? = some '#' then hex.data.drop 1 else hex.data
  match cs with
  | [a, b, c, d, e, f] =>
    match hexDigitVal a, hexDigitVal b, hexDigitVal c,
        hexDigitVal d, hexDigitVal e, hexDigitVal f with
    | some va, some vb, some vc, some vd, some ve, some vf =>
      some ((16 * va + vb : ℕ), (16 * vc + vd : ℕ), (16 * ve + vf : ℕ))
    | _, _, _, _, _, _ => none
  | _ => none

/-- src/js/utils.js `rgbToHex`:
`"#" + ((1 << 24) + (r << 16) + (g << 8) + b).toString(16).slice(1)`.
The shifts ToInt32 their operands (NaN and infinities become 0); the
final `+ b` is an ordinary float addition, so a NaN channel makes the
whole sum NaN. -/
def rgbToHex (r g b : JsNum) : String :=
  let s := JsNum.jadd
    (JsNum.num (((16777216 : ℤ) + JsNum.shl r 16 + JsNum.shl g 8 : ℤ) : ℚ)) b
  "#" ++ jsSlice1 (jsToStringHex s)

/-- src/js/utils.js `interpolateColor`: per-channel linear interpolation
then `rgbToHex`.  The two colour arguments are always the fixed valid
literals of `getColorForValue`, so the null branch of `hexToRgb` is
unreachable (in JS it would throw); `(0,0,0)` stands in for it. -/
def interpolateColor (color1 color2 : String) (factor : JsNum) : String :=
  let c1 := (hexToRgb color1).getD (0, 0, 0)
  let c2 := (hexToRgb color2).getD (0, 0, 0)
  let r := JsNum.jround (JsNum.jadd (JsNum.num (c1.1 : ℚ))
    (JsNum.jmul factor (JsNum.num ((c2.1 - c1.1 : ℤ) : ℚ))))
  let g := JsNum.jround (JsNum.jadd (JsNum.num (c1.2.1 : ℚ))
    (JsNum.jmul factor (JsNum.num ((c2.2.1 - c1.2.1 : ℤ) : ℚ))))
  let b := JsNum.jround (JsNum.jadd (JsNum.num (c1.2.2 : ℚ))
    (JsNum.jmul factor (JsNum.num ((c2.2.2 - c1.2.2 : ℤ) : ℚ))))
  rgbToHex r g b

/-- The `normalized` value computed first in src/js/utils.js
`getColorForValue`: `(value - min) / (max - min)` with no guard against
`min == max`. -/
def normalizedOf (value mn mx : ℚ) : JsNum :=
  JsNum.jdiv (JsNum.num (value - mn)) (JsNum.num (mx - mn))

/-- src/js/utils.js `getColorForValue` (lines 235-273). -/
def getColorForValue (value mn mx : ℚ) (colorScheme : String) : String :=
  let normalized := normalizedOf value mn mx
  if colorScheme = "speed" then
    if JsNum.jlt normalized (JsNum.num (33 / 100)) then
      interpolateColor "#3b82f6" "#10b981" (JsNum.jdiv normalized (JsNum.num (33 / 100)))
    else if JsNum.jlt normalized (JsNum.num (66 / 100)) then
      interpolateColor "#10b981" "#f59e0b"
        (JsNum.jdiv (JsNum.jsub normalized (JsNum.num (33 / 100))) (JsNum.num (33 / 100)))
    else
      interpolateColor "#f59e0b" "#ef4444"
        (JsNum.jdiv (JsNum.jsub normalized (JsNum.num (66 / 100))) (JsNum.num (34 / 100)))
  else if colorScheme = "elevation" then
    if JsNum.jlt normalized (JsNum.num (1 / 2)) then
      interpolateColor "#10b981" "#f59e0b" (JsNum.jdiv normalized (JsNum.num (1 / 2)))
    else
      interpolateColor "#f59e0b" "#92400e"
        (JsNum.jdiv (JsNum.jsub normalized (JsNum.num (1 / 2))) (JsNum.num (1 / 2)))
  else if colorScheme = "accuracy" then
    let inverted := JsNum.jsub (JsNum.num 1) normalized
    if JsNum.jlt inverted (JsNum.num (1 / 2)) then
      interpolateColor "#ef4444" "#f59e0b" (JsNum.jdiv inverted (JsNum.num (1 / 2)))
    else
      interpolateColor "#f59e0b" "#10b981"
        (JsNum.jdiv (JsNum.jsub inverted (JsNum.num (1 / 2))) (JsNum.num (1 / 2)))
  else "#3b82f6"

/-! ## jpsParser.js: NMEA sentence parsing and fix correlation

Sentence fields arrive as `List Char` (the `line.split(',')` parts).
An out-of-range part access (`parts[i]` = `undefined`) is modelled by
`[]`: `parseFloat` / `parseInt` of both is NaN and the length guards
treat both as absent, matching the source paths. -/

/-- Result of src/js/jpsParser.js `parseNMEACoordinate`: JS `null`
(empty coordinate or hemisphere string), NaN (unparseable digits,
propagated through the arithmetic), or a signed decimal-degree value. -/
inductive NCoord where
  | null
  | nan
  | val (q : ℚ)
deriving DecidableEq, Repr

/-- Result of src/js/jpsParser.js `parseNMEATime`: JS `null` (missing or
short field), an Invalid Date (NaN components), or a valid `Date`
modelled by its millisecond offset. -/
inductive NTime where
  | null
  | invalid
  | val (ms : ℤ)
deriving DecidableEq, Repr

/-- src/js/jpsParser.js `parseNMEACoordinate` (lines 236-253):
`degrees = Math.floor(value / 100)`, `minutes = value - degrees * 100`,
`decimal = degrees + minutes / 60`, negated for `S` / `W`. -/
def parseNMEACoordinate (coord direction : List Char) : NCoord :=
  if coord = [] ∨ direction = [] then NCoord.null
  else
    match parseFloat coord with
    | none => NCoord.nan
    | some v =>
      let degrees : ℤ := ⌊v / 100⌋
      let minutes : ℚ := v - (degrees : ℚ) * 100
      let dec : ℚ := (degrees : ℚ) + minutes / 60
      NCoord.val (if direction = ['S'] ∨ direction = ['W'] then -dec else dec)

/-- src/js/jpsParser.js `parseNMEATime` (lines 209-231): HHMMSS.sss into
a `Date` on the current UTC day.  The constant current-day base is
dropped (see the file header); `Date.UTC` truncates the total
milliseconds toward zero. -/
def parseNMEATime (timeStr : List Char) : NTime :=
  if timeStr.length < 6 then NTime.null
  else
    match parseInt (timeStr.take 2), parseInt ((timeStr.drop 2).take 2),
        parseFloat (timeStr.drop 4) with
    | some h, some m, some s =>
      NTime.val (ratTrunc ((h : ℚ) * 3600000 + (m : ℚ) * 60000 + s * 1000))
    | _, _, _ => NTime.invalid

/-- Fields returned by src/js/jpsParser.js `parseGPGGA`.  `time = none`
is an Invalid Date (truthy in JS, but `toISOString` on it throws);
`lat` / `lon` `none` is NaN (the source only rejects `null`
coordinates). -/
structure GGAData where
  time : Option ℤ
  lat : Option ℚ
  lon : Option ℚ
  elevation : Option ℚ
  satellites : Option ℤ
  hdop : Option ℚ
  quality : Option ℤ
deriving DecidableEq, Repr

/-- src/js/jpsParser.js `parseGPGGA` (lines 113-139). -/
def parseGPGGA (parts : List (List Char)) : Option GGAData :=
  let time := parseNMEATime (parts.getD 1 [])
  let latC := parseNMEACoordinate (parts.getD 2 []) (parts.getD 3 [])
  let lonC := parseNMEACoordinate (parts.getD 4 []) (parts.getD 5 [])
  if time = NTime.null ∨ latC = NCoord.null ∨ lonC = NCoord.null then none
  else
    some {
      time := match time with | NTime.val t => some t | _ => none
      lat := match latC with | NCoord.val q => some q | _ => none
      lon := match lonC with | NCoord.val q => some q | _ => none
      elevation := parseFloat (parts.getD 9 [])
      satellites := parseInt (parts.getD 7 [])
      hdop := parseFloat (parts.getD 8 [])
      quality := parseInt (parts.getD 6 []) }

/-- Fields returned by src/js/jpsParser.js `parseGNVTG`; the knots field
(`parts[5]`) is parsed by the source but never used. -/
structure VTGData where
  course : Option ℚ
  speed : Option ℚ
deriving DecidableEq, Repr

/-- src/js/jpsParser.js `parseGNVTG` (lines 145-161): course from
`parts[1]`, speed from the km/h field `parts[7]` divided by 3.6. -/
def parseGNVTG (parts : List (List Char)) : VTGData :=
  { course := parseFloat (parts.getD 1 [])
    speed := (parseFloat (parts.getD 7 [])).map (fun k => k / (36 / 10)) }

/-- JS negative-index access `parts[i]` for possibly negative `i`:
`undefined` (here `[]`) when out of range. -/
def getPartI (parts : List (List Char)) (i : ℤ) : List Char :=
  if i < 0 then [] else parts.getD i.toNat []

/-- Fields returned by src/js/jpsParser.js `parseGNGSA`. -/
structure GSAData where
  pdop : Option ℚ
  hdop : Option ℚ
  vdop : Option ℚ
deriving DecidableEq, Repr

/-- src/js/jpsParser.js `parseGNGSA` (lines 167-181): DOPs read from the
end of the part list; the VDOP part is split on `*` to drop the
checksum. -/
def parseGNGSA (parts : List (List Char)) : GSAData :=
  let n : ℤ := parts.length
  { pdop := parseFloat (getPartI parts (n - 3))
    hdop := parseFloat (getPartI parts (n - 2))
    vdop := parseFloat ((splitChar '*' (getPartI parts (n - 1))).getD 0 []) }

/-- Fields parsed by src/js/jpsParser.js `parseGNZDA`.  The source
composes them into a `Date` stored as `fullDate`; that value is never
read afterwards, so the components are kept unassembled. -/
structure ZDAData where
  day : Option ℤ
  month : Option ℤ
  year : Option ℤ
  hours : Option ℤ
  minutes : Option ℤ
  seconds : Option ℚ
deriving DecidableEq, Repr

/-- src/js/jpsParser.js `parseGNZDA` (lines 187-204): with no `parts[1]`
the `substring` call throws and the catch returns null. -/
def parseGNZDA (parts : List (List Char)) : Option ZDAData :=
  if parts.length ≤ 1 then none
  else
    let time := parts.getD 1 []
    some {
      day := parseInt (parts.getD 2 [])
      month := parseInt (parts.getD 3 [])
      year := parseInt (parts.getD 4 [])
      hours := parseInt (time.take 2)
      minutes := parseInt ((time.drop 2).take 2)
      seconds := parseFloat (time.drop 4) }

/-- The per-epoch fix accumulator of src/js/jpsParser.js `parseJPS`
(the values of `dataMap`).  Keys are the `Date` millisecond values:
`toISOString` is injective on valid dates, so the ISO-string keys of the
source and these integer keys identify the same epochs. -/
structure FixAcc where
  time : ℤ
  lat : Option ℚ
  lon : Option ℚ
  elevation : Option ℚ
  satellites : Option ℤ
  hdop : Option ℚ
  quality : Option ℤ
  course : Option ℚ
  speed : Option ℚ
  vdop : Option ℚ
  pdop : Option ℚ
  fullDate : Option ZDAData
deriving DecidableEq, Repr

/-- A fresh accumulator created on the first GGA for an epoch. -/
def newFixAcc (t : ℤ) (g : GGAData) : FixAcc :=
  { time := t
    lat := g.lat
    lon := g.lon
    elevation := g.elevation
    satellites := g.satellites
    hdop := g.hdop
    quality := g.quality
    course := none
    speed := none
    vdop := none
    pdop := none
    fullDate := none }

/-- The merge `Object.assign(existing, parseGPGGA(...))`: every key of the GGA
record (including null ones) overwrites the accumulator. -/
def assignGGA (a : FixAcc) (t : ℤ) (g : GGAData) : FixAcc :=
  { a with
    time := t
    lat := g.lat
    lon := g.lon
    elevation := g.elevation
    satellites := g.satellites
    hdop := g.hdop
    quality := g.quality }

/-- The merge `Object.assign(existing, parseGNVTG(...))`: course and speed keys
always overwrite (also with null). -/
def assignVTG (a : FixAcc) (d : VTGData) : FixAcc :=
  { a with course := d.course, speed := d.speed }

/-- The GSA merge: each DOP is written only when the accumulator's value
is falsy and the parsed value is truthy. -/
def assignGSA (a : FixAcc) (d : GSAData) : FixAcc :=
  { a with
    hdop := if ¬ truthyQ a.hdop ∧ truthyQ d.hdop then d.hdop else a.hdop
    vdop := if ¬ truthyQ a.vdop ∧ truthyQ d.vdop then d.vdop else a.vdop
    pdop := if ¬ truthyQ a.pdop ∧ truthyQ d.pdop then d.pdop else a.pdop }

/-- The insertion-ordered `Map` of src/js/jpsParser.js `parseJPS`. -/
abbrev DataMap := List (ℤ × FixAcc)

/-- JS `dataMap.has(key)`. -/
def hasKey (m : DataMap) (k : ℤ) : Bool :=
  m.any (fun e => e.1 == k)

/-- Update the accumulator stored under key `k` (keys are unique by
construction, insertion position preserved as in a JS `Map`). -/
def setAt (m : DataMap) (k : ℤ) (f : FixAcc → FixAcc) : DataMap :=
  m.map (fun e => if e.1 = k then (e.1, f e.2) else e)

/-- Mutate the most recently inserted entry
(`Array.from(dataMap.keys()).pop()`); no-op on an empty map. -/
def modLast (m : DataMap) (f : FixAcc → FixAcc) : DataMap :=
  match m with
  | [] => []
  | [e] => [(e.1, f e.2)]
  | e :: rest => e :: modLast rest f

/-- One iteration of the `lines.forEach` dispatch in
src/js/jpsParser.js `parseJPS` (lines 16-64).  The error case is the
`RangeError` thrown by `toISOString` on an Invalid Date, which aborts
the whole parse. -/
def processLine (m : DataMap) (rawLine : List Char) : Except String DataMap :=
  let line := jsTrim rawLine
  if line.head? ≠ some '$' then Except.ok m
  else
    let parts := splitChar ',' line
    let messageType := parts.getD 0 []
    if messageType = "$GPGGA".data then
      match parseGPGGA parts with
      | none => Except.ok m
      | some g =>
        match g.time with
        | none => Except.error "RangeError: Invalid time value"
        | some t =>
          if hasKey m t then Except.ok (setAt m t (fun a => assignGGA a t g))
          else Except.ok (m ++ [(t, newFixAcc t g)])
    else if messageType = "$GNVTG".data then
      Except.ok (modLast m (fun a => assignVTG a (parseGNVTG parts)))
    else if messageType = "$GNGSA".data then
      Except.ok (modLast m (fun a => assignGSA a (parseGNGSA parts)))
    else if messageType = "$GNZDA".data then
      match parseGNZDA parts with
      | none => Except.ok m
      | some z => Except.ok (modLast m (fun a => { a with fullDate := some z }))
    else Except.ok m

/-- Fold of `processLine` over all lines; a thrown `RangeError`
short-circuits exactly as an exception escaping `forEach` does. -/
def processAll (m : DataMap) : List (List Char) → Except String DataMap
  | [] => Except.ok m
  | l :: ls =>
    match processLine m l with
    | Except.error e => Except.error e
    | Except.ok m2 => processAll m2 ls

/-- The coercion `x || null` on an optional numeric field at finalization: a present
zero becomes null. -/
def orNullQ (o : Option ℚ) : Option ℚ :=
  match o with
  | some q => if q = 0 then none else some q
  | none => none

/-- The coercion `x || null` for the integer satellite count. -/
def orNullZ (o : Option ℤ) : Option ℤ :=
  match o with
  | some z => if z = 0 then none else some z
  | none => none

/-- A point of the track returned by src/js/jpsParser.js `parseJPS`. -/
structure JpsPoint where
  lat : ℚ
  lon : ℚ
  elevation : Option ℚ
  time : ℤ
  speed : Option ℚ
  course : Option ℚ
  hdop : Option ℚ
  vdop : Option ℚ
  pdop : Option ℚ
  satellites : Option ℤ
deriving DecidableEq, Repr

/-- Finalization of one accumulator (lines 67-82): kept only when both
`data.lat` and `data.lon` are truthy (neither NaN nor zero), optional
fields pass through `|| null`. -/
def emitPoint (e : ℤ × FixAcc) : Option JpsPoint :=
  match e.2.lat, e.2.lon with
  | some la, some lo =>
    if la ≠ 0 ∧ lo ≠ 0 then
      some { lat := la, lon := lo
             elevation := orNullQ e.2.elevation
             time := e.2.time
             speed := orNullQ e.2.speed
             course := orNullQ e.2.course
             hdop := orNullQ e.2.hdop
             vdop := orNullQ e.2.vdop
             pdop := orNullQ e.2.pdop
             satellites := orNullZ e.2.satellites }
    else none
  | _, _ => none

/-- The track record resolved by src/js/jpsParser.js `parseJPS`. -/
structure JpsTrack where
  name : String
  type : String
  points : List JpsPoint
deriving DecidableEq, Repr

/-- The comparator `(a, b) => a.time - b.time` of the final sort, as the
ordering it realises. -/
def jpsLe (a b : JpsPoint) : Prop :=
  a.time ≤ b.time

instance : DecidableRel jpsLe :=
  fun a b => inferInstanceAs (Decidable (a.time ≤ b.time))

instance : IsTotal JpsPoint jpsLe :=
  ⟨fun a b => le_total a.time b.time⟩

instance : IsTrans JpsPoint jpsLe :=
  ⟨fun _ _ _ h1 h2 => le_trans h1 h2⟩

/-- src/js/jpsParser.js `parseJPS` (lines 6-107): split into lines,
correlate sentences into the epoch map, drop accumulators without a
truthy position, fail on an empty point list, and sort by time.  The
stable sort of the model realises the result of `Array.prototype.sort`
with the time comparator. -/
def parseJPS (fileName : String) (content : String) : Except String JpsTrack :=
  match processAll [] (splitChar '\n' content.data) with
  | Except.error e => Except.error e
  | Except.ok m =>
    let points := m.filterMap emitPoint
    if points = [] then Except.error "Ingen GPS-punkter funnet i JPS-filen"
    else Except.ok { name := fileName, type := "jps", points := List.insertionSort jpsLe points }

/-! ## gpxParser.js: GPX documents

`parseGPX` runs on the output of the browser `DOMParser`, which is
outside this repository: the document is modelled directly as an
element tree.  `DOMParser.parseFromString` signals ill-formed XML by
producing a document that exposes a `parsererror` element, which is
exactly the condition the source tests with
`xmlDoc.querySelector('parsererror')`. -/

/-- An XML DOM element: tag name, attributes, text content, child
elements.  `text` stands for the concatenated descendant text that
`textContent` returns on the leaf elements the parser reads. -/
inductive XmlNode where
  | elem (tag : String) (attrs : List (String × String)) (text : String)
      (children : List XmlNode)

mutual

/-- DOM `querySelectorAll(name)` over a node and its descendants, in
document (pre-)order. -/
def collectElems (name : String) : XmlNode → List XmlNode
  | XmlNode.elem t a s cs =>
    (if t = name then [XmlNode.elem t a s cs] else []) ++ collectElemsList name cs

/-- DOM `querySelectorAll(name)` over a forest, in document order. -/
def collectElemsList (name : String) : List XmlNode → List XmlNode
  | [] => []
  | c :: cs => collectElems name c ++ collectElemsList name cs

end

/-- DOM `getAttribute`: `none` models the JS `null` for a missing
attribute. -/
def getAttribute (n : XmlNode) (name : String) : Option String :=
  match n with
  | XmlNode.elem _ attrs _ _ => (attrs.find? (fun p => p.1 == name)).map (fun p => p.2)

/-- DOM `element.querySelector(name)`: first matching descendant (the
element itself is not matched), `none` for JS `null`. -/
def childQuery (n : XmlNode) (name : String) : Option XmlNode :=
  match n with
  | XmlNode.elem _ _ _ cs => (collectElemsList name cs).head?

/-- The `textContent` of an element. -/
def textContent (n : XmlNode) : String :=
  match n with
  | XmlNode.elem _ _ s _ => s

/-- A point extracted by src/js/gpxParser.js `parseGPX`.  `lat` / `lon`
`none` is NaN (`parseFloat` of a missing attribute is NaN too).  For the
optional child-element fields, `none` collapses both JS `null` (element
absent) and NaN (unparseable text); the `time` text is kept as the raw
string handed to `new Date(...)`. -/
structure GpxPoint where
  lat : Option ℚ
  lon : Option ℚ
  elevation : Option ℚ
  time : Option String
  speed : Option ℚ
  course : Option ℚ
  hdop : Option ℚ
  vdop : Option ℚ
  pdop : Option ℚ
  satellites : Option ℤ

/-- The per-trkpt extraction of src/js/gpxParser.js (lines 28-54). -/
def trkptToPoint (e : XmlNode) : GpxPoint :=
  { lat := (getAttribute e "lat").bind (fun s => parseFloat s.data)
    lon := (getAttribute e "lon").bind (fun s => parseFloat s.data)
    elevation := (childQuery e "ele").bind (fun el => parseFloat (textContent el).data)
    time := (childQuery e "time").map textContent
    speed := (childQuery e "speed").bind (fun el => parseFloat (textContent el).data)
    course := (childQuery e "course").bind (fun el => parseFloat (textContent el).data)
    hdop := (childQuery e "hdop").bind (fun el => parseFloat (textContent el).data)
    vdop := (childQuery e "vdop").bind (fun el => parseFloat (textContent el).data)
    pdop := (childQuery e "pdop").bind (fun el => parseFloat (textContent el).data)
    satellites := (childQuery e "sat").bind (fun el => parseInt (textContent el).data) }

/-- The track record resolved by src/js/gpxParser.js `parseGPX`. -/
structure GpxTrack where
  name : String
  type : String
  points : List GpxPoint

/-- src/js/gpxParser.js `parseGPX` (lines 6-73) on the parsed DOM:
throw when the document exposes a `parsererror` element, throw when it
has no `trkpt` elements, otherwise emit one point per `trkpt` in
document order. -/
def parseGPX (fileName : String) (doc : XmlNode) : Except String GpxTrack :=
  match collectElems "parsererror" doc with
  | _ :: _ => Except.error "Feil ved parsing av GPX-fil"
  | [] =>
    match collectElems "trkpt" doc with
    | [] => Except.error "Ingen trackpoints funnet i GPX-filen"
    | t :: ts =>
      Except.ok { name := fileName, type := "gpx", points := (t :: ts).map trkptToPoint }

/-! ## cesiumController.js: FlightCell telemetry merge -/

/-- A 3-axis sample (`{x, y, z}`). -/
structure V3 where
  x : ℚ
  y : ℚ
  z : ℚ
deriving DecidableEq, Repr

/-- An attitude sample produced by `parseFlightCellFlightData`
(src/js/cesiumController.js): timestamp in `Date` milliseconds, gyro,
accelerometer, pitch, roll. -/
structure FlightSample where
  time : ℚ
  epochMs : Option ℚ
  gyro : V3
  accel : V3
  pitch : Option ℚ
  roll : Option ℚ
deriving DecidableEq, Repr

/-- A GPS point produced by `parseFlightCellGPS`
(src/js/cesiumController.js): the payload carried through the merge. -/
structure FcGpsPoint where
  lat : Option ℚ
  lon : Option ℚ
  elevation : Option ℚ
  time : ℚ
  speed : Option ℚ
  heading : Option ℚ
  hdop : Option ℚ
  pdop : Option ℚ
  satellites : Option ℚ
  fix : Option ℚ
deriving DecidableEq, Repr

/-- JS `Math.floor(time.getTime() / 1000)`: timestamp truncated to whole
seconds. -/
def keySec (tms : ℚ) : ℤ :=
  ⌊tms / 1000⌋

/-- A merged output point: the spread GPS payload plus the attitude
fields.  In the unmatched branch the source sets only `pitch` and
`roll` (to null); `gyro` / `accel` stay absent, modelled by `none`. -/
structure MergedPoint where
  gps : FcGpsPoint
  pitch : Option ℚ
  roll : Option ℚ
  gyro : Option V3
  accel : Option V3
deriving DecidableEq, Repr

/-- The per-second lookup `Map` of `mergeFlightCellData`. -/
abbrev FlightMap := List (ℤ × FlightSample)

/-- JS `Map.prototype.set`: overwrite the entry with this key, else
append. -/
def fmSet (m : FlightMap) (k : ℤ) (v : FlightSample) : FlightMap :=
  if m.any (fun e => e.1 == k) then m.map (fun e => if e.1 = k then (e.1, v) else e)
  else m ++ [(k, v)]

/-- JS `Map.prototype.get`. -/
def fmGet (m : FlightMap) (k : ℤ) : Option FlightSample :=
  (m.find? (fun e => e.1 == k)).map (fun e => e.2)

/-- The `flightData.forEach(... flightMap.set(key, fd))` loop: later
samples with the same truncated second overwrite earlier ones. -/
def buildFlightMap (flightData : List FlightSample) : FlightMap :=
  flightData.foldl (fun m fd => fmSet m (keySec fd.time) fd) []

/-- The loop body of `mergeFlightCellData`: one GPS point merged
against the per-second lookup map. -/
def mergeOne (flightMap : FlightMap) (gps : FcGpsPoint) : MergedPoint :=
  match fmGet flightMap (keySec gps.time) with
  | some flight =>
    { gps := gps, pitch := flight.pitch, roll := flight.roll
      gyro := some flight.gyro, accel := some flight.accel }
  | none => { gps := gps, pitch := none, roll := none, gyro := none, accel := none }

/-- src/js/cesiumController.js `mergeFlightCellData` (lines 465-499):
build the lookup map, then emit one merged point per GPS point in input
order. -/
def mergeFlightCellData (gpsPoints : List FcGpsPoint) (flightData : List FlightSample) :
    List MergedPoint :=
  let flightMap := buildFlightMap flightData
  gpsPoints.map (fun gps => mergeOne flightMap gps)

/-! ## Spec-side comparison definitions -/

/-- Modelled from the spec (§4.1 `elevationGain`): the sum of positive
`elevation[i] - elevation[i-1]` deltas in which a delta is NOT included
when either side's elevation is missing (missing elevation treated as
"no data", never as zero).  Stated for comparison with
`calculateElevationGain`, which is the source's behaviour. -/
def specElevationGain : List TrackPoint → ℚ
  | [] => 0
  | [_] => 0
  | p :: q :: rest =>
    (match p.elevation, q.elevation with
     | some a, some b => if 0 < b - a then b - a else 0
     | _, _ => 0) + specElevationGain (q :: rest)

/-! ## Concrete inputs used by the scenario parts and witnesses -/

/-- A statistics input point with every optional field absent. -/
def basePoint : TrackPoint :=
  { lat := 60, lon := 5, elevation := none, time := none, speed := none,
    course := none, hdop := none, vdop := none, pdop := none, satellites := none }

/-- Elevation series with a missing middle elevation. -/
def c2missing : List TrackPoint :=
  [{ basePoint with elevation := some 100 }, basePoint,
   { basePoint with elevation := some 120 }]

/-- The spec scenario elevation series `[100, 90, 120]`. -/
def c2series : List TrackPoint :=
  [{ basePoint with elevation := some 100 }, { basePoint with elevation := some 90 },
   { basePoint with elevation := some 120 }]

/-- Points whose HDOP samples are `1.0 / 2.0 / 3.0`. -/
def c5points : List TrackPoint :=
  [{ basePoint with hdop := some 1 }, { basePoint with hdop := some 2 },
   { basePoint with hdop := some 3 }]

/-- Points with recorded speeds `2, 0, null, 4`. -/
def c8points : List TrackPoint :=
  [{ basePoint with speed := some 2 }, { basePoint with speed := some 0 },
   basePoint, { basePoint with speed := some 4 }]

/-- A non-empty point list in which no point carries a timestamp. -/
def c10points : List TrackPoint :=
  [basePoint, { basePoint with elevation := some 10 }]

/-- The C1 scenario input: the GGA sentence of the spec followed by a
VTG sentence whose km/h field is 10.0. -/
def c1content : String :=
  "$GPGGA,123519,4807.038,N,01131.000,E,1,08,0.9,545.4,M,46.9,M,,*47\n$GNVTG,054.7,T,034.4,M,005.5,N,010.0,K,A*3D"

/-- The single point the C1 scenario produces. -/
def c1point : JpsPoint :=
  { lat := 481173 / 10000
    lon := 691 / 60
    elevation := some (2727 / 5)
    time := 45319000
    speed := some (25 / 9)
    course := some (547 / 10)
    hdop := some (9 / 10)
    vdop := none
    pdop := none
    satellites := some 8 }

/-- Two GGA sentences in reverse chronological order. -/
def c7content : String :=
  "$GPGGA,123520,4807.038,N,01131.000,E,1,08,0.9,545.4,M,46.9,M,,*47\n$GPGGA,123519,4807.039,N,01131.000,E,1,07,1.1,545.0,M,46.9,M,,*47"

/-- Missing-or-nonzero invariant for an optional rational field of a
parsed point. -/
def nullOrNonzeroQ (o : Option ℚ) : Prop :=
  o = none ∨ ∃ q, o = some q ∧ q ≠ 0

/-- Missing-or-nonzero invariant for the satellite count. -/
def nullOrNonzeroZ (o : Option ℤ) : Prop :=
  o = none ∨ ∃ z, o = some z ∧ z ≠ 0

/-- A well-formed single-trkpt GPX document. -/
def c4doc : XmlNode :=
  XmlNode.elem "gpx" [] ""
    [XmlNode.elem "trk" [] ""
      [XmlNode.elem "trkseg" [] ""
        [XmlNode.elem "trkpt" [("lat", "60.0"), ("lon", "5.0")]
          "" [XmlNode.elem "ele" [] "545.4" []]]]]

/-- An attitude sample at time `t` ms with pitch `p`, roll `p + 1`. -/
def c6sample (t p : ℚ) : FlightSample :=
  { time := t, epochMs := none, gyro := ⟨1, 2, 3⟩, accel := ⟨4, 5, 6⟩,
    pitch := some p, roll := some (p + 1) }

/-- A FlightCell GPS point at time `t` ms. -/
def c6gpsPoint (t : ℚ) : FcGpsPoint :=
  { lat := some 60, lon := some 5, elevation := some 100, time := t, speed := none,
    heading := none, hdop := none, pdop := none, satellites := none, fix := none }

/-- GPS points in seconds 1 and 2. -/
def c6gps : List FcGpsPoint :=
  [c6gpsPoint 1500, c6gpsPoint 2500]

/-- Two attitude samples that both truncate to second 1 (the later one
wins), none in second 2. -/
def c6flight : List FlightSample :=
  [c6sample 1200 10, c6sample 1800 20]

/-! ## Theorems -/

/-- Helper: with `min == max` the normalized position of
`getColorForValue` is NaN (`0 / 0`). -/
theorem normalizedOf_self_nan (m : ℚ) : normalizedOf m m m = JsNum.nan := by
  unfold normalizedOf
  rw [sub_self]
  with_unfolding_all rfl

/-- Helper: members of the positive-speed filter are positive recorded
speeds. -/
theorem mem_presentPosQ {l : List (Option ℚ)} {x : ℚ} (h : x ∈ presentPosQ l) :
    0 < x ∧ some x ∈ l := by
  unfold presentPosQ at h
  rw [List.mem_filterMap] at h
  obtain ⟨o, ho, he⟩ := h
  cases o with
  | none => simp at he
  | some q =>
    simp only [Option.some_bind] at he
    by_cases hq : 0 < q
    · rw [if_pos hq] at he
      obtain rfl := Option.some.inj he
      exact ⟨hq, ho⟩
    · rw [if_neg hq] at he
      exact absurd he (by simp)

/-- Claim C2, counterexample: on the series `[100, null, 120]` the code
returns 120 — the `120 - null` delta is included with the missing side
coerced to 0 — while a gain that skips deltas with a missing side (the
claim) returns 0. -/
theorem spec_C2_counterexample :
    calculateElevationGain c2missing = 120 ∧ specElevationGain c2missing = 0 ∧
    (120 : ℚ) ≠ 0 :=
  ⟨by with_unfolding_all rfl, by with_unfolding_all rfl, by norm_num⟩

/-- Helper: `calculateElevationGain` equals the spec's skip-missing gain
taken after coercing every missing elevation to 0. -/
theorem gain_coerces_null_to_zero (pts : List TrackPoint) :
    calculateElevationGain pts =
      specElevationGain (pts.map (fun p => { p with elevation := some (jsDateNum p.elevation) })) := by
  induction pts with
  | nil => rfl
  | cons p rest ih =>
    cases rest with
    | nil => rfl
    | cons q rest2 =>
      simp only [calculateElevationGain, specElevationGain, List.map_cons] at ih ⊢
      rw [ih]

/-- Claim C2 (amended): the delta coerces a missing (JS `null`)
elevation to 0, so elevation gain is the skip-missing sum only after
replacing every missing elevation by 0; when every point has an
elevation present the two agree, and the series `[100, 90, 120]` yields
30. -/
theorem spec_C2 :
    (∀ pts : List TrackPoint,
      calculateElevationGain pts =
        specElevationGain (pts.map (fun p => { p with elevation := some (jsDateNum p.elevation) }))) ∧
    (∀ pts : List TrackPoint, (∀ p ∈ pts, p.elevation ≠ none) →
      calculateElevationGain pts = specElevationGain pts) ∧
    calculateElevationGain c2series = 30 := by
  refine ⟨gain_coerces_null_to_zero, ?_, by with_unfolding_all rfl⟩
  intro pts hall
  rw [gain_coerces_null_to_zero pts]
  have hmap : pts.map (fun p => { p with elevation := some (jsDateNum p.elevation) }) = pts := by
    induction pts with
    | nil => rfl
    | cons p rest ih =>
      have hp : p.elevation ≠ none := hall p (List.mem_cons_self p rest)
      obtain ⟨a, ha⟩ := Option.ne_none_iff_exists'.mp hp
      have hrest := ih (fun q hq => hall q (List.mem_cons_of_mem p hq))
      simp only [List.map_cons, hrest]
      cases p
      simp only [ha, jsDateNum]
      simp_all
  rw [hmap]

/-- Claim C2, witness: the all-present series `[100, 90, 120]` is in
the agreement regime of the amended claim. -/
theorem spec_C2_witness :
    (∀ p ∈ c2series, p.elevation ≠ none) ∧
    calculateElevationGain c2series = specElevationGain c2series := by
  have hall : ∀ p ∈ c2series, p.elevation ≠ none := by decide
  exact ⟨hall, spec_C2.2.1 c2series hall⟩

/-- Claim C3, counterexample: at `value = min = max = 5` the normalized
position is NaN, not 0, and `getColorForValue` returns the NaN-derived
string `"#aN"`, not a colour from the scheme's stops. -/
theorem spec_C3_counterexample :
    normalizedOf 5 5 5 = JsNum.nan ∧ normalizedOf 5 5 5 ≠ JsNum.num 0 ∧
    getColorForValue 5 5 5 "speed" = "#aN" := by
  have h1 : normalizedOf 5 5 5 = JsNum.nan := by with_unfolding_all rfl
  refine ⟨h1, ?_, by with_unfolding_all rfl⟩
  rw [h1]
  simp

/-- Claim C3 (amended): `getColorForValue` has no guard for
`min == max`: the normalized position is then NaN when `value == min`
and ±Infinity otherwise (never the finite 0 of the claim), and for each
of the three known schemes the colour computed at `value == min == max`
is the NaN-derived string `"#aN"` rather than a colour from the
scheme's stops. -/
theorem spec_C3 : ∀ v m : ℚ,
    (v = m → normalizedOf v m m = JsNum.nan) ∧
    (v ≠ m → normalizedOf v m m = JsNum.inf ∨ normalizedOf v m m = JsNum.ninf) ∧
    getColorForValue m m m "speed" = "#aN" ∧
    getColorForValue m m m "elevation" = "#aN" ∧
    getColorForValue m m m "accuracy" = "#aN" := by
  intro v m
  have hnan := normalizedOf_self_nan m
  refine ⟨fun hv => hv ▸ normalizedOf_self_nan m, fun hv => ?_, ?_, ?_, ?_⟩
  · unfold normalizedOf
    rw [sub_self]
    show JsNum.jdiv (JsNum.num (v - m)) (JsNum.num 0) = JsNum.inf ∨
      JsNum.jdiv (JsNum.num (v - m)) (JsNum.num 0) = JsNum.ninf
    simp only [JsNum.jdiv, if_pos rfl, if_neg (sub_ne_zero.mpr hv)]
    by_cases hlt : 0 < v - m
    · exact Or.inl (by simp [hlt])
    · exact Or.inr (by simp [hlt])
  · unfold getColorForValue
    rw [hnan]
    with_unfolding_all rfl
  · unfold getColorForValue
    rw [hnan]
    with_unfolding_all rfl
  · unfold getColorForValue
    rw [hnan]
    with_unfolding_all rfl

/-- Claim C3, witness: the amended claim applied at concrete inputs. -/
theorem spec_C3_witness :
    normalizedOf 7 7 7 = JsNum.nan ∧
    (normalizedOf 8 7 7 = JsNum.inf ∨ normalizedOf 8 7 7 = JsNum.ninf) ∧
    getColorForValue 7 7 7 "elevation" = "#aN" :=
  ⟨(spec_C3 7 7).1 rfl, (spec_C3 8 7).2.1 (by norm_num), (spec_C3 7 7).2.2.2.1⟩

/-- Claim C5: the protection-level functions return `dop * 5.33 * 2.0`
and null for an absent or zero DOP; in the statistics record each of
the six HPL/VPL entries applies the protection level to the matching
HDOP/VDOP min/avg/max aggregate independently; HDOP samples
`1.0 / 2.0 / 3.0` give HPL `10.66 / 21.32 / 31.98` exactly (hence
within the claim's ±0.01). -/
theorem spec_C5 :
    (∀ d : Option ℚ, d = none ∨ d = some 0 →
      calculateHPL d = none ∧ calculateVPL d = none) ∧
    (∀ q : ℚ, q ≠ 0 →
      calculateHPL (some q) = some (q * (533 / 100) * 2) ∧
      calculateVPL (some q) = some (q * (533 / 100) * 2)) ∧
    (∀ pts s, calculateStatistics pts = some s →
      s.minHPL = (if truthyQ s.minHDOP then calculateHPL s.minHDOP else none) ∧
      s.avgHPL = (if truthyQ s.avgHDOP then calculateHPL s.avgHDOP else none) ∧
      s.maxHPL = (if truthyQ s.maxHDOP then calculateHPL s.maxHDOP else none) ∧
      s.minVPL = (if truthyQ s.minVDOP then calculateVPL s.minVDOP else none) ∧
      s.avgVPL = (if truthyQ s.avgVDOP then calculateVPL s.avgVDOP else none) ∧
      s.maxVPL = (if truthyQ s.maxVDOP then calculateVPL s.maxVDOP else none)) ∧
    (∀ s, calculateStatistics c5points = some s →
      s.minHDOP = some 1 ∧ s.avgHDOP = some 2 ∧ s.maxHDOP = some 3 ∧
      s.minHPL = some (1066 / 100) ∧ s.avgHPL = some (2132 / 100) ∧
      s.maxHPL = some (3198 / 100)) := by
  refine ⟨?_, ?_, ?_, ?_⟩
  · rintro d (rfl | rfl)
    · exact ⟨by with_unfolding_all rfl, by with_unfolding_all rfl⟩
    · exact ⟨by with_unfolding_all rfl, by with_unfolding_all rfl⟩
  · intro q hq
    have ht : truthyQ (some q) = true := by simp [truthyQ, hq]
    constructor
    · unfold calculateHPL
      rw [if_pos ht]
      rfl
    · unfold calculateVPL
      rw [if_pos ht]
      rfl
  · intro pts s h
    cases pts with
    | nil => exact absurd h (by simp [calculateStatistics])
    | cons p0 rest =>
      unfold calculateStatistics at h
      obtain rfl := Option.some.inj h
      exact ⟨rfl, rfl, rfl, rfl, rfl, rfl⟩
  · intro s h
    unfold c5points calculateStatistics at h
    obtain rfl := Option.some.inj h
    refine ⟨?_, ?_, ?_, ?_, ?_, ?_⟩ <;> with_unfolding_all rfl

/-- Claim C5, witness: the general protection-level law and the
statistics scenario applied at concrete inputs. -/
theorem spec_C5_witness :
    calculateHPL (some 1) = some (1066 / 100) ∧
    (∃ s, calculateStatistics c5points = some s ∧ s.avgHPL = some (2132 / 100)) := by
  constructor
  · rw [(spec_C5.2.1 1 (by norm_num)).1]
    norm_num
  · obtain ⟨s, hs⟩ : ∃ s, calculateStatistics c5points = some s :=
      ⟨_, by with_unfolding_all rfl⟩
    exact ⟨s, hs, (spec_C5.2.2.2 s hs).2.2.2.2.1⟩

/-- Claim C8: only present positive recorded speeds enter the speed
list; when that list is non-empty `avgSpeed` is its arithmetic mean,
otherwise `avgSpeed` falls back to `distance / duration`. -/
theorem spec_C8 : ∀ pts s, calculateStatistics pts = some s →
    (∀ x ∈ presentPosQ (pts.map TrackPoint.speed),
      0 < x ∧ some x ∈ pts.map TrackPoint.speed) ∧
    (presentPosQ (pts.map TrackPoint.speed) ≠ [] →
      s.avgSpeed = (((presentPosQ (pts.map TrackPoint.speed)).sum /
        ((presentPosQ (pts.map TrackPoint.speed)).length : ℚ) : ℚ) : ℝ)) ∧
    (presentPosQ (pts.map TrackPoint.speed) = [] →
      s.avgSpeed = s.distance / (s.duration : ℝ)) := by
  intro pts s h
  refine ⟨fun x hx => mem_presentPosQ hx, ?_, ?_⟩
  · intro hne
    cases pts with
    | nil => exact absurd h (by simp [calculateStatistics])
    | cons p0 rest =>
      unfold calculateStatistics at h
      obtain rfl := Option.some.inj h
      simp only [if_neg hne]
  · intro hemp
    cases pts with
    | nil => exact absurd h (by simp [calculateStatistics])
    | cons p0 rest =>
      unfold calculateStatistics at h
      obtain rfl := Option.some.inj h
      simp only [if_pos hemp]

/-- Claim C8, witness: speeds `2, 0, null, 4` give mean 3 (the zero and
the missing speed never enter the mean). -/
theorem spec_C8_witness :
    ∃ s, calculateStatistics c8points = some s ∧ s.avgSpeed = ((3 : ℚ) : ℝ) := by
  obtain ⟨s, hs⟩ : ∃ s, calculateStatistics c8points = some s :=
    ⟨_, by with_unfolding_all rfl⟩
  have hne : presentPosQ (c8points.map TrackPoint.speed) ≠ [] := by
    with_unfolding_all decide
  have h := (spec_C8 c8points s hs).2.1 hne
  have hval : ((presentPosQ (c8points.map TrackPoint.speed)).sum /
      ((presentPosQ (c8points.map TrackPoint.speed)).length : ℚ) : ℚ) = 3 := by
    with_unfolding_all rfl
  exact ⟨s, hs, by rw [h, hval]⟩

/-- Claim C10: with the first and last timestamps both missing,
ToNumber coerces both to 0 and `duration` is exactly 0, identical to a
zero-second track. -/
theorem spec_C10 : ∀ (p0 : TrackPoint) (rest : List TrackPoint) (s : Stats),
    calculateStatistics (p0 :: rest) = some s →
    p0.time = none →
    ((p0 :: rest).getLast (List.cons_ne_nil p0 rest)).time = none →
    s.duration = 0 := by
  intro p0 rest s h h1 h2
  unfold calculateStatistics at h
  obtain rfl := Option.some.inj h
  simp only [h1, h2, jsDateNum]
  norm_num

/-- Claim C10, witness: a two-point track with no timestamps has
duration 0. -/
theorem spec_C10_witness :
    ∃ s, calculateStatistics c10points = some s ∧ s.duration = 0 := by
  obtain ⟨s, hs⟩ : ∃ s, calculateStatistics c10points = some s :=
    ⟨_, by with_unfolding_all rfl⟩
  exact ⟨s, hs, spec_C10 _ _ s hs rfl rfl⟩

/-- Helper: `parseJPS` only succeeds with the sorted finalized point
list of the epoch map it built. -/
theorem parseJPS_ok_points {name content : String} {tr : JpsTrack}
    (h : parseJPS name content = Except.ok tr) :
    ∃ m, processAll [] (splitChar '\n' content.data) = Except.ok m ∧
      tr.points = List.insertionSort jpsLe (m.filterMap emitPoint) := by
  unfold parseJPS at h
  cases hP : processAll [] (splitChar '\n' content.data) with
  | error e =>
    rw [hP] at h
    exact absurd h (by simp)
  | ok m =>
    rw [hP] at h
    dsimp only at h
    by_cases hpts : List.filterMap emitPoint m = []
    · rw [if_pos hpts] at h
      exact absurd h (by simp)
    · rw [if_neg hpts] at h
      obtain rfl := (Except.ok.inj h).symm
      exact ⟨m, rfl, rfl⟩

/-- Claim C7: every track accepted by the NMEA/JPS parser has its
points sorted ascending (monotonically non-decreasing) by timestamp. -/
theorem spec_C7 : ∀ (name content : String) (tr : JpsTrack),
    parseJPS name content = Except.ok tr → List.Sorted jpsLe tr.points := by
  intro name content tr h
  obtain ⟨m, -, hpts⟩ := parseJPS_ok_points h
  rw [hpts]
  exact List.sorted_insertionSort jpsLe _

/-- Claim C7, witness: two GGA fixes arriving in reverse chronological
order still come out sorted. -/
theorem spec_C7_witness :
    ∃ tr, parseJPS "w.jps" c7content = Except.ok tr ∧ List.Sorted jpsLe tr.points := by
  obtain ⟨tr, htr⟩ : ∃ tr, parseJPS "w.jps" c7content = Except.ok tr :=
    ⟨_, by with_unfolding_all rfl⟩
  exact ⟨tr, htr, spec_C7 _ _ tr htr⟩

/-- Helper: the `|| null` finalization yields null or a nonzero
value. -/
theorem orNullQ_spec (o : Option ℚ) : nullOrNonzeroQ (orNullQ o) := by
  cases o with
  | none => exact Or.inl rfl
  | some q =>
    by_cases h : q = 0
    · exact Or.inl (by simp [orNullQ, h])
    · exact Or.inr ⟨q, by simp [orNullQ, h], h⟩

/-- Helper: integer version of `orNullQ_spec`. -/
theorem orNullZ_spec (o : Option ℤ) : nullOrNonzeroZ (orNullZ o) := by
  cases o with
  | none => exact Or.inl rfl
  | some z =>
    by_cases h : z = 0
    · exact Or.inl (by simp [orNullZ, h])
    · exact Or.inr ⟨z, by simp [orNullZ, h], h⟩

/-- Claim C9: in every track the NMEA/JPS parser returns, no point has
a zero latitude or longitude (zero fixes are dropped at finalization),
and every optional field is either null or a nonzero value (a zero
accumulated from the sentences is emitted as null). -/
theorem spec_C9 : ∀ (name content : String) (tr : JpsTrack),
    parseJPS name content = Except.ok tr →
    ∀ p ∈ tr.points, p.lat ≠ 0 ∧ p.lon ≠ 0 ∧
      nullOrNonzeroQ p.elevation ∧ nullOrNonzeroQ p.speed ∧ nullOrNonzeroQ p.course ∧
      nullOrNonzeroQ p.hdop ∧ nullOrNonzeroQ p.vdop ∧ nullOrNonzeroQ p.pdop ∧
      nullOrNonzeroZ p.satellites := by
  intro name content tr h p hp
  obtain ⟨m, -, hpts⟩ := parseJPS_ok_points h
  rw [hpts, List.mem_insertionSort, List.mem_filterMap] at hp
  obtain ⟨e, -, hemit⟩ := hp
  unfold emitPoint at hemit
  cases hla : e.2.lat with
  | none => rw [hla] at hemit; exact absurd hemit (by simp)
  | some la =>
    cases hlo : e.2.lon with
    | none => rw [hla, hlo] at hemit; exact absurd hemit (by simp)
    | some lo =>
      rw [hla, hlo] at hemit
      dsimp only at hemit
      by_cases hc : la ≠ 0 ∧ lo ≠ 0
      · rw [if_pos hc] at hemit
        obtain rfl := Option.some.inj hemit
        exact ⟨hc.1, hc.2, orNullQ_spec _, orNullQ_spec _, orNullQ_spec _,
          orNullQ_spec _, orNullQ_spec _, orNullQ_spec _, orNullZ_spec _⟩
      · rw [if_neg hc] at hemit
        exact absurd hemit (by simp)

/-- Claim C9, witness: the invariant at the concrete C1 input. -/
theorem spec_C9_witness :
    ∃ tr, parseJPS "c1.jps" c1content = Except.ok tr ∧
      ∀ p ∈ tr.points, p.lat ≠ 0 ∧ p.lon ≠ 0 := by
  obtain ⟨tr, htr⟩ : ∃ tr, parseJPS "c1.jps" c1content = Except.ok tr :=
    ⟨_, by with_unfolding_all rfl⟩
  exact ⟨tr, htr, fun p hp => ⟨(spec_C9 _ _ tr htr p hp).1, (spec_C9 _ _ tr htr p hp).2.1⟩⟩

/-- Claim C1: `parseNMEACoordinate` decomposes `DDMM.MMMM` into
`floor(value / 100)` whole degrees plus `(value - degrees * 100) / 60`,
negated for `S` / `W`; and the spec's GGA sentence together with a VTG
giving 10 km/h produces exactly one point with lat `48.1173` (exact),
lon within `1 / 10000` of `11.5167`, elevation `545.4`, and speed
within `1 / 100` of `2.78` m/s. -/
theorem spec_C1 :
    (∀ (coord direction : List Char) (v : ℚ), parseFloat coord = some v →
      ((direction = ['N'] ∨ direction = ['E']) →
        parseNMEACoordinate coord direction =
          NCoord.val ((⌊v / 100⌋ : ℚ) + (v - (⌊v / 100⌋ : ℚ) * 100) / 60)) ∧
      ((direction = ['S'] ∨ direction = ['W']) →
        parseNMEACoordinate coord direction =
          NCoord.val (-((⌊v / 100⌋ : ℚ) + (v - (⌊v / 100⌋ : ℚ) * 100) / 60)))) ∧
    (parseJPS "c1.jps" c1content =
      Except.ok { name := "c1.jps", type := "jps", points := [c1point] } ∧
      c1point.lat = 481173 / 10000 ∧
      |c1point.lon - 115167 / 10000| ≤ 1 / 10000 ∧
      c1point.elevation = some (5454 / 10) ∧
      ∃ sp, c1point.speed = some sp ∧ |sp - 278 / 100| ≤ 1 / 100) := by
  constructor
  · intro coord direction v hv
    have hcoord : coord ≠ [] := by
      intro he
      rw [he] at hv
      rw [show parseFloat ([] : List Char) = none from rfl] at hv
      exact Option.noConfusion hv
    constructor
    · intro hd
      have hdir : direction ≠ [] := by rcases hd with rfl | rfl <;> simp
      have hSW : ¬ (direction = ['S'] ∨ direction = ['W']) := by
        rcases hd with rfl | rfl <;> simp
      unfold parseNMEACoordinate
      rw [if_neg (by simp [hcoord, hdir]), hv]
      dsimp only
      rw [if_neg hSW]
    · intro hd
      have hdir : direction ≠ [] := by rcases hd with rfl | rfl <;> simp
      have hSW : direction = ['S'] ∨ direction = ['W'] := hd
      unfold parseNMEACoordinate
      rw [if_neg (by simp [hcoord, hdir]), hv]
      dsimp only
      rw [if_pos hSW]
  · refine ⟨by with_unfolding_all rfl, rfl, ?_, by with_unfolding_all rfl,
      ⟨25 / 9, rfl, ?_⟩⟩
    · have hlon : c1point.lon = 691 / 60 := rfl
      rw [hlon, abs_le]
      constructor <;> norm_num
    · rw [abs_le]
      constructor <;> norm_num

/-- Claim C1, witness: the coordinate law applied to the scenario's two
coordinate fields. -/
theorem spec_C1_witness :
    parseNMEACoordinate "4807.038".data "N".data =
      NCoord.val ((⌊(4807038 / 1000 : ℚ) / 100⌋ : ℚ) +
        ((4807038 / 1000 : ℚ) - (⌊(4807038 / 1000 : ℚ) / 100⌋ : ℚ) * 100) / 60) ∧
    parseNMEACoordinate "01131.000".data "W".data =
      NCoord.val (-((⌊(1131 : ℚ) / 100⌋ : ℚ) +
        ((1131 : ℚ) - (⌊(1131 : ℚ) / 100⌋ : ℚ) * 100) / 60)) := by
  constructor
  · exact (spec_C1.1 "4807.038".data "N".data (4807038 / 1000)
      (by with_unfolding_all rfl)).1 (Or.inl rfl)
  · exact (spec_C1.1 "01131.000".data "W".data 1131
      (by with_unfolding_all rfl)).2 (Or.inr rfl)

/-- Claim C4: `parseGPX` fails exactly when the parsed document is not
well-formed XML (the `DOMParser` then exposes a `parsererror` element,
the condition the source tests) or contains zero `trkpt` elements; on
success the track has one point per `trkpt` element, in document
order. -/
theorem spec_C4 : ∀ (fileName : String) (doc : XmlNode),
    ((∃ e, parseGPX fileName doc = Except.error e) ↔
      collectElems "parsererror" doc ≠ [] ∨ collectElems "trkpt" doc = []) ∧
    (∀ tr, parseGPX fileName doc = Except.ok tr →
      tr.points = (collectElems "trkpt" doc).map trkptToPoint ∧
      tr.points.length = (collectElems "trkpt" doc).length) := by
  intro fileName doc
  constructor
  · constructor
    · rintro ⟨e, he⟩
      unfold parseGPX at he
      cases hpe : collectElems "parsererror" doc with
      | cons a l => exact Or.inl (by simp [hpe])
      | nil =>
        rw [hpe] at he
        dsimp only at he
        cases htp : collectElems "trkpt" doc with
        | nil => exact Or.inr rfl
        | cons t ts =>
          rw [htp] at he
          exact absurd he (by simp)
    · intro hor
      unfold parseGPX
      cases hpe : collectElems "parsererror" doc with
      | cons a l => exact ⟨"Feil ved parsing av GPX-fil", rfl⟩
      | nil =>
        rcases hor with hpe2 | htp
        · exact absurd hpe hpe2
        · rw [htp]
          exact ⟨"Ingen trackpoints funnet i GPX-filen", rfl⟩
  · intro tr htr
    unfold parseGPX at htr
    cases hpe : collectElems "parsererror" doc with
    | cons a l =>
      rw [hpe] at htr
      exact absurd htr (by simp)
    | nil =>
      rw [hpe] at htr
      dsimp only at htr
      cases htp : collectElems "trkpt" doc with
      | nil =>
        rw [htp] at htr
        exact absurd htr (by simp)
      | cons t ts =>
        rw [htp] at htr
        obtain rfl := (Except.ok.inj htr).symm
        exact ⟨rfl, by simp⟩

/-- Claim C4, witness: a well-formed single-trkpt document parses into
a one-point track. -/
theorem spec_C4_witness :
    ∃ tr, parseGPX "t.gpx" c4doc = Except.ok tr ∧
      tr.points.length = (collectElems "trkpt" c4doc).length ∧
      tr.points.length = 1 := by
  obtain ⟨tr, htr⟩ : ∃ tr, parseGPX "t.gpx" c4doc = Except.ok tr :=
    ⟨_, by with_unfolding_all rfl⟩
  have h := (spec_C4 "t.gpx" c4doc).2 tr htr
  refine ⟨tr, htr, h.2, ?_⟩
  rw [h.2]
  rfl



/-- Helper: a key-preserving rewrite of the map entries commutes with
the key lookup. -/
theorem find?_key_map (m : FlightMap) (k k' : ℤ) (v : FlightSample) :
    (m.map (fun e => if e.1 = k' then (e.1, v) else e)).find? (fun e => e.1 == k) =
      (m.find? (fun e => e.1 == k)).map (fun e => if e.1 = k' then (e.1, v) else e) := by
  induction m with
  | nil => rfl
  | cons e rest ih =>
    simp only [List.map_cons, List.find?_cons]
    have hkey : ((if e.1 = k' then (e.1, v) else e) : ℤ × FlightSample).1 = e.1 := by
      split_ifs <;> rfl
    rw [hkey]
    cases hpa : (e.1 == k) with
    | true => rfl
    | false => exact ih

/-- Helper: `Map.get` after `Map.set`. -/
theorem fmGet_fmSet (m : FlightMap) (k' : ℤ) (v : FlightSample) (k : ℤ) :
    fmGet (fmSet m k' v) k = if k = k' then some v else fmGet m k := by
  unfold fmSet fmGet
  by_cases hhas : m.any (fun e => e.1 == k') = true
  · rw [if_pos hhas, find?_key_map]
    by_cases hk : k = k'
    · subst hk
      obtain ⟨x, hx, hpx⟩ := List.any_eq_true.mp hhas
      have hsome : (List.find? (fun e => e.1 == k) m).isSome :=
        List.find?_isSome.mpr ⟨x, hx, hpx⟩
      obtain ⟨e, he⟩ := Option.isSome_iff_exists.mp hsome
      have hek : e.1 = k := by simpa using List.find?_some he
      simp [he, hek]
    · cases hfind : List.find? (fun e => e.1 == k) m with
      | none => simp [hfind, hk]
      | some e =>
        have hek : e.1 = k := by simpa using List.find?_some hfind
        have hne : ¬ e.1 = k' := by rw [hek]; exact hk
        simp [hfind, hk, hne]
  · rw [if_neg hhas]
    have hall : ∀ x ∈ m, ¬ x.1 = k' := by
      intro x hx hxe
      exact hhas (List.any_eq_true.mpr ⟨x, hx, by simp [hxe]⟩)
    rw [List.find?_append]
    by_cases hk : k = k'
    · subst hk
      have hfn : List.find? (fun e => e.1 == k) m = none := by
        rw [List.find?_eq_none]
        intro x hx
        simp only [beq_iff_eq]
        exact hall x hx
      simp [hfn]
    · have hfn1 : List.find? (fun e => e.1 == k) ([(k', v)] : FlightMap) = none := by
        rw [List.find?_eq_none]
        intro x hx
        simp only [List.mem_singleton] at hx
        subst hx
        simp only [beq_iff_eq]
        exact fun h => hk h.symm
      simp [hfn1, hk]

/-- Helper: the per-second map lookup returns the last attitude sample
whose timestamp truncates to the requested second. -/
theorem fmGet_buildFlightMap (fd : List FlightSample) (k : ℤ) :
    fmGet (buildFlightMap fd) k =
      (fd.filter (fun f => keySec f.time == k)).getLast? := by
  induction fd using List.reverseRecOn with
  | nil => rfl
  | append_singleton fd f ih =>
    unfold buildFlightMap at ih ⊢
    rw [List.foldl_append, List.foldl_cons, List.foldl_nil, fmGet_fmSet,
      List.filter_append]
    by_cases hkf : keySec f.time = k
    · rw [if_pos hkf.symm]
      have hf1 : List.filter (fun f => keySec f.time == k) [f] = [f] := by simp [hkf]
      rw [hf1, List.getLast?_concat]
    · rw [if_neg (fun h => hkf h.symm)]
      have hf1 : List.filter (fun f => keySec f.time == k) [f] = [] := by simp [hkf]
      rw [hf1, List.append_nil, ih]

/-- Helper: pairs of `l.zip (l.map f)` relate each element to its
image. -/
theorem zip_map_self {α β : Type} (f : α → β) :
    ∀ (l : List α) (a : α) (b : β), (a, b) ∈ l.zip (l.map f) → b = f a := by
  intro l
  induction l with
  | nil => intro a b h; simp at h
  | cons x xs ih =>
    intro a b h
    rw [List.map_cons, List.zip_cons_cons] at h
    rcases List.mem_cons.mp h with heq | hmem
    · simp only [Prod.mk.injEq] at heq
      rw [heq.2, heq.1]
    · exact ih a b hmem

/-- Helper: the spread keeps the GPS payload unchanged. -/
theorem mergeOne_gps (fm : FlightMap) (g : FcGpsPoint) : (mergeOne fm g).gps = g := by
  unfold mergeOne
  cases fmGet fm (keySec g.time) <;> rfl

/-- Claim C6: the merge emits exactly one point per GPS point, in input
order, with the GPS payload retained; a GPS point with no attitude
sample in its truncated second gets `pitch = roll = null` (and no
gyro/accel) instead of being dropped, and one with a matching sample
gets pitch/roll/gyro/accel copied from a sample of that second (the
last such sample, per `Map.set` overwrite). -/
theorem spec_C6 (gpsPoints : List FcGpsPoint) (flightData : List FlightSample) :
    (mergeFlightCellData gpsPoints flightData).length = gpsPoints.length ∧
    (mergeFlightCellData gpsPoints flightData).map MergedPoint.gps = gpsPoints ∧
    (∀ g m, (g, m) ∈ gpsPoints.zip (mergeFlightCellData gpsPoints flightData) →
      m.gps = g ∧
      ((∀ f ∈ flightData, keySec f.time ≠ keySec g.time) →
        m.pitch = none ∧ m.roll = none ∧ m.gyro = none ∧ m.accel = none) ∧
      (∀ f0 ∈ flightData, keySec f0.time = keySec g.time →
        ∃ f ∈ flightData, keySec f.time = keySec g.time ∧
          m.pitch = f.pitch ∧ m.roll = f.roll ∧
          m.gyro = some f.gyro ∧ m.accel = some f.accel)) := by
  refine ⟨by simp [mergeFlightCellData], ?_, ?_⟩
  · show (gpsPoints.map (fun g => mergeOne (buildFlightMap flightData) g)).map
      MergedPoint.gps = gpsPoints
    rw [List.map_map]
    have : (MergedPoint.gps ∘ fun g => mergeOne (buildFlightMap flightData) g) = id := by
      funext g
      exact mergeOne_gps _ g
    rw [this, List.map_id]
  · intro g m hm
    have hm2 : m = mergeOne (buildFlightMap flightData) g :=
      zip_map_self _ gpsPoints g m hm
    subst hm2
    refine ⟨mergeOne_gps _ _, ?_, ?_⟩
    · intro hnone
      have hget : fmGet (buildFlightMap flightData) (keySec g.time) = none := by
        rw [fmGet_buildFlightMap]
        cases hfil : flightData.filter (fun f => keySec f.time == keySec g.time) with
        | nil => rfl
        | cons f fs =>
          have hf : f ∈ flightData.filter (fun f => keySec f.time == keySec g.time) := by
            rw [hfil]
            exact List.mem_cons_self f fs
          have hf2 := List.mem_filter.mp hf
          exact absurd (by simpa using hf2.2) (hnone f hf2.1)
      unfold mergeOne
      rw [hget]
      exact ⟨rfl, rfl, rfl, rfl⟩
    · intro f0 hf0 hk0
      have hne : flightData.filter (fun f => keySec f.time == keySec g.time) ≠ [] := by
        intro hemp
        have hf : f0 ∈ flightData.filter (fun f => keySec f.time == keySec g.time) :=
          List.mem_filter.mpr ⟨hf0, by simp [hk0]⟩
        rw [hemp] at hf
        simp at hf
      have hsome : ((flightData.filter (fun f => keySec f.time == keySec g.time)).getLast?).isSome :=
        List.getLast?_isSome.mpr hne
      obtain ⟨f, hf⟩ := Option.isSome_iff_exists.mp hsome
      have hfmem := List.mem_filter.mp (List.mem_of_getLast?_eq_some hf)
      refine ⟨f, hfmem.1, by simpa using hfmem.2, ?_⟩
      unfold mergeOne
      rw [fmGet_buildFlightMap, hf]
      exact ⟨rfl, rfl, rfl, rfl⟩

/-- Claim C6, witness: two attitude samples in second 1 and none in
second 2 — the second-1 GPS point picks up the last matching sample,
the second-2 GPS point is kept with null pitch/roll. -/
theorem spec_C6_witness :
    ∃ m2, (c6gpsPoint 2500, m2) ∈ c6gps.zip (mergeFlightCellData c6gps c6flight) ∧
      m2.pitch = none ∧ m2.roll = none ∧ m2.gps = c6gpsPoint 2500 ∧
      (mergeFlightCellData c6gps c6flight).length = c6gps.length := by
  have hzip : c6gps.zip (mergeFlightCellData c6gps c6flight) =
      [(c6gpsPoint 1500,
        { gps := c6gpsPoint 1500, pitch := some 20, roll := some 21,
          gyro := some ⟨1, 2, 3⟩, accel := some ⟨4, 5, 6⟩ }),
       (c6gpsPoint 2500,
        { gps := c6gpsPoint 2500, pitch := none, roll := none,
          gyro := none, accel := none })] := by
    with_unfolding_all rfl
  have hmem : (c6gpsPoint 2500,
      ({ gps := c6gpsPoint 2500, pitch := none, roll := none,
         gyro := none, accel := none } : MergedPoint)) ∈
        c6gps.zip (mergeFlightCellData c6gps c6flight) := by
    rw [hzip]
    exact List.mem_cons_of_mem _ (List.mem_cons_self _ _)
  have h := (spec_C6 c6gps c6flight).2.2 (c6gpsPoint 2500) _ hmem
  have hnone : ∀ f ∈ c6flight, keySec f.time ≠ keySec (c6gpsPoint 2500).time := by
    intro f hf
    rcases List.mem_cons.mp hf with rfl | hf2
    · with_unfolding_all decide
    · rcases List.mem_cons.mp hf2 with rfl | hf3
      · with_unfolding_all decide
      · simp at hf3
  exact ⟨_, hmem, (h.2.1 hnone).1, (h.2.1 hnone).2.1, h.1,
    (spec_C6 c6gps c6flight).1⟩
